import Mathlib

/-! Verification of the conversation-turn orchestration in src/api/index.py.

This file gives a shallow embedding of the orchestration core of the
repository (the send_message handler together with its persistence
adapters save_conversation_to_db and save_error_to_db, and the per-thread
lock registry), and proves or refutes the frozen claims about it.

Modelling conventions:
* the remote assistant client is an oracle supplying the outcome of each
  remote call the handler makes, in program order; a Python exception
  raised by a remote call is an Except.error value;
* machine time advances only at the 1-unit sleep in the polling loop, so
  after k sleeps the elapsed wall-clock since run creation is k units;
* the document store is an explicit list of documents plus flags saying
  whether the client is connected and whether its operations raise;
* every remote call and every store call the handler issues is recorded
  in an event trace, and lock acquisition and release are trace events,
  so call counting and lock balance are statements about the trace.
-/

/-- One message as returned by the remote messages.list call.  The remote
service returns the list ordered most-recent-first, so the first
assistant-role entry is the most recent assistant message.  The content
field is the list of content blocks; the handler reads block 0. -/
structure RMessage where
  role : String
  content : List String
  deriving Repr, DecidableEq

/-- One run as returned by the remote runs.list call; only the status is
inspected by the handler. -/
structure RunInfo where
  status : String
  deriving Repr, DecidableEq

/-- Oracle for the remote assistant client: the outcome of each remote call
the handler makes, in program order.  An Except.error value models the
Python exception a failing call raises. -/
structure Oracle where
  listRunsRes : Except String (List RunInfo)
  postMsgRes : Except String Unit
  createRunRes : Except String Unit
  statusAt : Nat → Except String String
  cancelRes : Except String Unit
  listMsgsRes : Except String (List RMessage)

/-- One stored message inside a conversation document. -/
structure MsgDoc where
  role : String
  content : String
  timestamp : Nat
  deriving Repr, DecidableEq

/-- One document of the conversations collection. -/
structure ConvDoc where
  thread_id : String
  messages : List MsgDoc
  created_at : Nat
  updated_at : Nat
  deriving Repr, DecidableEq

/-- One document of the errors collection. -/
structure ErrDoc where
  thread_id : String
  user_message : String
  error_message : String
  timestamp : Nat
  deriving Repr, DecidableEq

/-- The document store: the two collections, whether the mongo client was
connected at startup, and whether collection operations raise. -/
structure DB where
  connected : Bool
  convs : List ConvDoc
  errs : List ErrDoc
  convOpsFail : Bool
  errOpsFail : Bool
  deriving Repr, DecidableEq

/-- find_one on the conversations collection: first document whose
thread_id matches. -/
def find_one (convs : List ConvDoc) (tid : String) : Option ConvDoc :=
  convs.find? (fun c => c.thread_id == tid)

/-- update_one with a push of new messages and a set of updated_at: updates
the first matching document only. -/
def update_one_push : List ConvDoc → String → List MsgDoc → Nat → List ConvDoc
  | [], _, _, _ => []
  | c :: cs, tid, ms, now =>
    if c.thread_id == tid then
      { c with messages := c.messages ++ ms, updated_at := now } :: cs
    else
      c :: update_one_push cs tid ms now

/-- The two-entry message batch one turn persists: the user half and the
assistant half share the one timestamp now. -/
def turnBatch (umsg aresp : String) (now : Nat) : List MsgDoc :=
  [⟨"user", umsg, now⟩, ⟨"assistant", aresp, now⟩]

/-- save_conversation_to_db from src/api/index.py: returns False without
touching the store when the client is not connected or an operation
raises; otherwise upserts: update_one with a push when a document for the
thread exists, insert_one of a fresh two-message document otherwise. -/
def save_conversation_to_db (db : DB) (tid umsg aresp : String) (now : Nat) :
    Bool × DB :=
  if db.connected = false then (false, db)
  else if db.convOpsFail then (false, db)
  else
    match find_one db.convs tid with
    | some _ =>
      (true, { db with convs := update_one_push db.convs tid (turnBatch umsg aresp now) now })
    | none =>
      (true, { db with convs := db.convs ++ [⟨tid, turnBatch umsg aresp now, now, now⟩] })

/-- save_error_to_db from src/api/index.py: single insert, no upsert;
returns False without touching the store when disconnected or raising. -/
def save_error_to_db (db : DB) (tid umsg emsg : String) (now : Nat) :
    Bool × DB :=
  if db.connected = false then (false, db)
  else if db.errOpsFail then (false, db)
  else (true, { db with errs := db.errs ++ [⟨tid, umsg, emsg, now⟩] })

/-- Python truthiness of an optional request field: absent (None) and the
empty string are falsy. -/
def falsy : Option String → Bool
  | none => true
  | some s => s == ""

/-- An inbound send_message request body. -/
structure Req where
  thread_id : Option String
  message : Option String
  deriving Repr, DecidableEq

/-- Body of an HTTP response: the success shape with response and
thread_id fields, or the error shape. -/
inductive RespBody where
  | ok (response : String) (thread_id : String)
  | err (msg : String)
  deriving Repr, DecidableEq

/-- An HTTP response: status code and JSON body shape. -/
structure HttpResp where
  status : Nat
  body : RespBody
  deriving Repr, DecidableEq

/-- Outcome of the manual polling loop of send_message. The Nat records at
which poll index (equivalently, elapsed time units since run creation) the
loop left: completed and terminalFail and retrieveErr left after the
retrieve at that index, timedOut left when the elapsed check at that index
exceeded the deadline. -/
inductive PollOutcome where
  | completed (k : Nat)
  | terminalFail (status : String) (k : Nat)
  | retrieveErr (e : String) (k : Nat)
  | timedOut (k : Nat)
  deriving Repr, DecidableEq

/-- The statuses the loop treats as terminal failure. -/
def isFailStatus (s : String) : Bool :=
  s == "failed" || s == "cancelled" || s == "expired"

/-- One pass of the polling loop, fuelled.  At iteration k the elapsed
time is k units (remote calls are instant, each sleep adds one unit); the
loop first checks the 30-unit deadline strictly, then retrieves the run
status, breaks on completed, raises on a terminal failure status, and
otherwise sleeps one unit. -/
def pollAux (statusAt : Nat → Except String String) : Nat → Nat → PollOutcome
  | 0, k => .timedOut k
  | fuel + 1, k =>
    if 30 < k then .timedOut k
    else
      match statusAt k with
      | .error e => .retrieveErr e k
      | .ok s =>
        if s == "completed" then .completed k
        else if isFailStatus s then .terminalFail s k
        else pollAux statusAt fuel (k + 1)

/-- The polling loop entered right after run creation: 32 units of fuel
suffice, since the deadline check stops the loop at index 31 at the
latest. -/
def pollRun (statusAt : Nat → Except String String) : PollOutcome :=
  pollAux statusAt 32 0

/-- Events the handler body emits: the remote calls and the persistence
adapter calls, in program order. -/
inductive RemEv where
  | listRuns
  | postMsg
  | createRun
  | retrieveRun (k : Nat)
  | cancelRun
  | listMsgs
  | dbUpsert
  | dbInsertErr
  deriving Repr, DecidableEq

/-- Full trace events: the per-thread lock acquire and release around the
body, and the body events. -/
inductive Ev where
  | lockAcquire
  | lockRelease
  | rem (e : RemEv)
  deriving Repr, DecidableEq

/-- The retrieve events of the first n polls. -/
def retrEvs (n : Nat) : List RemEv :=
  (List.range n).map RemEv.retrieveRun

/-- The caller-visible conflict message of the 409 branch. -/
def conflictMsg : String := "Hay una solicitud en proceso. Por favor, espera."

/-- The caller-visible message of the 504 branch. -/
def timeoutUserMsg : String :=
  "La solicitud ha tardado demasiado. Por favor, intenta reformular tu pregunta."

/-- The TimeoutError text raised and persisted on deadline exhaustion. -/
def timeoutErrMsg : String := "Timeout occurred while waiting for the API response"

/-- The sentinel response text when a completed run yields no assistant
message. -/
def noAnswerMsg : String := "No se pudo obtener una respuesta."

/-- The body of send_message from src/api/index.py, i.e. everything inside
the with-lock block: the active-run check, input validation, message post,
run creation, the polling loop with manual timeout, answer extraction and
persistence, and the three exception handlers.  Returns the HTTP response,
the store after the call, and the body event trace. -/
def send_message_body (req : Req) (o : Oracle) (db : DB) (now : Nat) :
    HttpResp × DB × List RemEv :=
  match o.listRunsRes with
  | .error e => (⟨500, .err e⟩, db, [.listRuns])
  | .ok runs =>
    if runs.any (fun r => r.status == "in_progress") then
      (⟨409, .err conflictMsg⟩, db, [.listRuns])
    else if falsy req.thread_id || falsy req.message then
      (⟨400, .err ("thread_id and message are required")⟩, db, [.listRuns])
    else
      let tid := req.thread_id.getD ("")
      let umsg := req.message.getD ("")
      match o.postMsgRes with
      | .error e =>
        (⟨500, .err e⟩, (save_error_to_db db tid umsg e now).2,
          [.listRuns, .postMsg, .dbInsertErr])
      | .ok _ =>
        match o.createRunRes with
        | .error e =>
          (⟨500, .err e⟩, (save_error_to_db db tid umsg e now).2,
            [.listRuns, .postMsg, .createRun, .dbInsertErr])
        | .ok _ =>
          match pollRun o.statusAt with
          | .retrieveErr e k =>
            (⟨500, .err e⟩, (save_error_to_db db tid umsg e now).2,
              [.listRuns, .postMsg, .createRun] ++ retrEvs (k + 1) ++ [.dbInsertErr])
          | .terminalFail st k =>
            (⟨500, .err ("Run failed with status: " ++ st)⟩,
              (save_error_to_db db tid umsg ("Run failed with status: " ++ st) now).2,
              [.listRuns, .postMsg, .createRun] ++ retrEvs (k + 1) ++ [.dbInsertErr])
          | .timedOut k =>
            match o.cancelRes with
            | .ok _ =>
              (⟨504, .err timeoutUserMsg⟩,
                (save_error_to_db db tid umsg timeoutErrMsg now).2,
                [.listRuns, .postMsg, .createRun] ++ retrEvs k ++ [.cancelRun, .dbInsertErr])
            | .error e =>
              (⟨500, .err e⟩, (save_error_to_db db tid umsg e now).2,
                [.listRuns, .postMsg, .createRun] ++ retrEvs k ++ [.cancelRun, .dbInsertErr])
          | .completed k =>
            match o.listMsgsRes with
            | .error e =>
              (⟨500, .err e⟩, (save_error_to_db db tid umsg e now).2,
                [.listRuns, .postMsg, .createRun] ++ retrEvs (k + 1) ++ [.listMsgs, .dbInsertErr])
            | .ok msgs =>
              match msgs.find? (fun m => m.role == "assistant") with
              | none =>
                (⟨200, .ok noAnswerMsg tid⟩, db,
                  [.listRuns, .postMsg, .createRun] ++ retrEvs (k + 1) ++ [.listMsgs])
              | some m =>
                match m.content with
                | [] =>
                  (⟨500, .err ("list index out of range")⟩,
                    (save_error_to_db db tid umsg ("list index out of range") now).2,
                    [.listRuns, .postMsg, .createRun] ++ retrEvs (k + 1) ++ [.listMsgs, .dbInsertErr])
                | text :: _ =>
                  (⟨200, .ok text tid⟩,
                    (save_conversation_to_db db tid umsg text now).2,
                    [.listRuns, .postMsg, .createRun] ++ retrEvs (k + 1) ++ [.listMsgs, .dbUpsert])

/-- send_message from src/api/index.py: the body runs inside the with-lock
block, so the full trace is the acquisition, the body events, then the
release the with statement performs on every exit. -/
def send_message (req : Req) (o : Oracle) (db : DB) (now : Nat) :
    HttpResp × DB × List Ev :=
  let r := send_message_body req o db now
  (r.1, r.2.1, (Ev.lockAcquire :: r.2.2.map Ev.rem) ++ [Ev.lockRelease])

/-! The per-thread lock registry.

thread_locks is a plain dict from thread id to a Lock object.  Lock
objects are modelled by the allocation counter value at their creation,
so two handles are the same primitive exactly when the numbers agree.
The registry access in send_message is three separate interpreter steps:
the membership test, the conditional store of a fresh Lock, and the
lookup the with statement performs; between any two of these steps
another request may run. -/

/-- The registry state: the dict from thread id to lock handle, and the
allocation counter producing fresh handles. -/
structure Registry where
  table : List (String × Nat)
  nextId : Nat
  deriving Repr, DecidableEq

/-- Membership test of the dict. -/
def regContains (r : Registry) (tid : String) : Bool :=
  (r.table.find? (fun p => p.1 == tid)).isSome

/-- Dict store: overwrites any previous binding of the key. -/
def regInsert (r : Registry) (tid : String) : Registry :=
  { table := (tid, r.nextId) :: r.table.filter (fun p => !(p.1 == tid))
    nextId := r.nextId + 1 }

/-- Dict lookup. -/
def regLookup (r : Registry) (tid : String) : Option Nat :=
  (r.table.find? (fun p => p.1 == tid)).map (fun p => p.2)

/-- The whole registry access of send_message executed without
interleaving: test, conditional store, lookup; returns the new registry
and the lock handle the with statement acquires. -/
def getThreadLock (r : Registry) (tid : String) : Registry × Option Nat :=
  let r1 := if regContains r tid then r else regInsert r tid
  (r1, regLookup r1 tid)

/-- The per-request state of one interleaved registry access: program
counter 0 = before the membership test, 1 = before the conditional store,
2 = before the lookup, 3 = done; sawAbsent records the outcome of the
test, got the handle obtained by the lookup. -/
structure AccState where
  pc : Nat
  sawAbsent : Bool
  got : Option Nat
  deriving Repr, DecidableEq

/-- A request state before its first step. -/
def accInit : AccState := ⟨0, false, none⟩

/-- One interpreter step of one request performing the registry access for
thread id tid. -/
def accStep (tid : String) (r : Registry) (s : AccState) : Registry × AccState :=
  match s.pc with
  | 0 => (r, { s with pc := 1, sawAbsent := !(regContains r tid) })
  | 1 =>
    if s.sawAbsent then (regInsert r tid, { s with pc := 2 })
    else (r, { s with pc := 2 })
  | 2 => (r, { s with pc := 3, got := regLookup r tid })
  | _ => (r, s)

/-- Run two concurrent registry accesses for the same thread id under a
schedule: true steps the first request, false the second. -/
def runSched (tid : String) : List Bool → Registry → AccState → AccState →
    Registry × AccState × AccState
  | [], r, a, b => (r, a, b)
  | true :: rest, r, a, b =>
    let s := accStep tid r a
    runSched tid rest s.1 s.2 b
  | false :: rest, r, a, b =>
    let s := accStep tid r b
    runSched tid rest s.1 a s.2

/-! Concrete instances used by witnesses and counterexamples. -/

/-- A connected store with empty collections and ops that succeed. -/
def dbC : DB := ⟨true, [], [], false, false⟩

/-- A store whose mongo client failed to connect at startup. -/
def dbDown : DB := ⟨false, [], [], false, false⟩

/-- The scenario oracle of the spec: no active run, post and run creation
succeed, the run completes after 2 polls, the message list holds the
assistant answer first (most recent first). -/
def oHappy : Oracle :=
  { listRunsRes := .ok []
    postMsgRes := .ok ()
    createRunRes := .ok ()
    statusAt := fun k => if k < 2 then .ok ("in_progress") else .ok ("completed")
    cancelRes := .ok ()
    listMsgsRes := .ok [⟨"assistant", ["hi there"]⟩, ⟨"user", ["hello"]⟩] }

/-- An oracle whose run never leaves in_progress. -/
def oStuck : Oracle :=
  { oHappy with statusAt := fun _ => .ok ("in_progress") }

/-- oStuck with a cancellation call that itself raises. -/
def oStuckCancelFail : Oracle :=
  { oStuck with cancelRes := .error ("cancel boom") }

/-- An oracle whose run ends with status failed after one poll. -/
def oFailed : Oracle :=
  { oHappy with statusAt := fun k => if k < 1 then .ok ("in_progress") else .ok ("failed") }

/-- An oracle reporting an in_progress run already on the thread. -/
def oActive : Oracle :=
  { oHappy with listRunsRes := .ok [⟨"in_progress"⟩] }

/-- An oracle whose run-listing call raises. -/
def oListFail : Oracle :=
  { oHappy with listRunsRes := .error ("connection reset") }

/-- An oracle whose completed run has no assistant message in the list. -/
def oNoAssistant : Oracle :=
  { oHappy with listMsgsRes := .ok [⟨"user", ["hello"]⟩] }

/-- The request of the spec scenario. -/
def reqHello : Req := ⟨some ("T1"), some ("hello")⟩

/-! Helper lemmas about event traces. -/

lemma count_lockAcquire_map_rem (l : List RemEv) :
    (l.map Ev.rem).count Ev.lockAcquire = 0 := by
  rw [List.count_eq_zero]
  intro h
  rcases List.mem_map.mp h with ⟨r, _, he⟩
  exact Ev.noConfusion he

lemma count_lockRelease_map_rem (l : List RemEv) :
    (l.map Ev.rem).count Ev.lockRelease = 0 := by
  rw [List.count_eq_zero]
  intro h
  rcases List.mem_map.mp h with ⟨r, _, he⟩
  exact Ev.noConfusion he

/-- C6: on every invocation of send_message and every exit path, the
per-thread lock acquired for the invocation is released before the call
returns: every trace contains exactly one acquisition and exactly one
release, and the release is the last event of the trace. -/
theorem send_message_lock_released (req : Req) (o : Oracle) (db : DB) (now : Nat) :
    ((send_message req o db now).2.2).count Ev.lockAcquire = 1 ∧
    ((send_message req o db now).2.2).count Ev.lockRelease = 1 ∧
    ((send_message req o db now).2.2).getLast? = some Ev.lockRelease := by
  refine ⟨?_, ?_, ?_⟩
  · show ((Ev.lockAcquire :: (send_message_body req o db now).2.2.map Ev.rem) ++
      [Ev.lockRelease]).count Ev.lockAcquire = 1
    rw [List.count_append, List.count_cons, count_lockAcquire_map_rem]
    decide
  · show ((Ev.lockAcquire :: (send_message_body req o db now).2.2.map Ev.rem) ++
      [Ev.lockRelease]).count Ev.lockRelease = 1
    rw [List.count_append, List.count_cons, count_lockRelease_map_rem]
    decide
  · exact List.getLast?_concat _

/-- C3: a send_message on a thread whose run listing reports an
in_progress run returns the 409 conflict response, leaves the store
untouched, and its whole trace is the lock acquisition, the single
run-listing call and the lock release: no message is posted, no run is
created, nothing is written to the store, and the lock is released. -/
theorem send_message_conflict (req : Req) (o : Oracle) (db : DB) (now : Nat)
    (runs : List RunInfo) (hl : o.listRunsRes = Except.ok runs)
    (ha : runs.any (fun r => r.status == "in_progress") = true) :
    send_message req o db now =
      (⟨409, RespBody.err conflictMsg⟩, db,
        [Ev.lockAcquire, Ev.rem RemEv.listRuns, Ev.lockRelease]) := by
  simp [send_message, send_message_body, hl, ha]

/-- Witness for C3: the conflict theorem applied to the concrete oracle
that reports an active run. -/
theorem send_message_conflict_witness :
    send_message reqHello oActive dbC 0 =
      (⟨409, RespBody.err conflictMsg⟩, dbC,
        [Ev.lockAcquire, Ev.rem RemEv.listRuns, Ev.lockRelease]) :=
  send_message_conflict reqHello oActive dbC 0 [⟨"in_progress"⟩] rfl rfl

/-- C1 is refuted: a request with the message field missing is answered
400, yet the trace of the call contains the run-listing remote call, so a
remote call is performed before the rejection; moreover when the thread_id
field is missing and the run-listing call raises, the handler answers 500,
not 400. -/
theorem send_message_validation_counterexample :
    ((send_message ⟨some ("T1"), none⟩ oHappy dbC 0).1.status = 400 ∧
      Ev.rem RemEv.listRuns ∈ (send_message ⟨some ("T1"), none⟩ oHappy dbC 0).2.2) ∧
    (send_message ⟨none, some ("hello")⟩ oListFail dbC 0).1.status = 500 := by
  decide

/-- C1 (amended): when the run-listing call succeeds and reports no
in_progress run, a request missing thread_id or message is answered 400
with no remote mutation and no store write, the only remote call of the
invocation being the run listing that the handler performs before
validation; the store is returned untouched and the lock is released. -/
theorem send_message_missing_field (req : Req) (o : Oracle) (db : DB) (now : Nat)
    (runs : List RunInfo) (hl : o.listRunsRes = Except.ok runs)
    (hna : runs.any (fun r => r.status == "in_progress") = false)
    (hv : (falsy req.thread_id || falsy req.message) = true) :
    send_message req o db now =
      (⟨400, RespBody.err ("thread_id and message are required")⟩, db,
        [Ev.lockAcquire, Ev.rem RemEv.listRuns, Ev.lockRelease]) := by
  simp [send_message, send_message_body, hl, hna, hv]

/-- Witness for the amended C1: a request with the message field missing,
against the oracle with no active run. -/
theorem send_message_missing_field_witness :
    send_message ⟨some ("T1"), none⟩ oHappy dbC 0 =
      (⟨400, RespBody.err ("thread_id and message are required")⟩, dbC,
        [Ev.lockAcquire, Ev.rem RemEv.listRuns, Ev.lockRelease]) :=
  send_message_missing_field ⟨some ("T1"), none⟩ oHappy dbC 0 [] rfl rfl rfl

/-- Ev.rem is injective, so counting a body event in the mapped trace is
counting it in the body list. -/
lemma rem_injective : Function.Injective Ev.rem := fun _ _ h => Ev.rem.inj h

/-- Counting a body event in the full trace of an invocation reduces to
counting it in the body event list. -/
lemma count_rem_trace (l : List RemEv) (e : RemEv) :
    ((Ev.lockAcquire :: l.map Ev.rem) ++ [Ev.lockRelease]).count (Ev.rem e) = l.count e := by
  rw [List.count_append, List.count_cons, List.count_map_of_injective _ _ rem_injective]
  simp

/-- A non-retrieve event never occurs among the retrieve events. -/
lemma count_retrEvs_of_ne (n : Nat) (e : RemEv) (h : ∀ j, e ≠ RemEv.retrieveRun j) :
    (retrEvs n).count e = 0 := by
  rw [List.count_eq_zero]
  intro hm
  rcases List.mem_map.mp hm with ⟨j, _, he⟩
  exact h j he.symm

/-- If every status the oracle reports up to the deadline is neither
completed nor a terminal failure, the fuelled loop exhausts the deadline
and leaves at elapsed index 31. -/
lemma pollAux_timedOut (statusAt : Nat → Except String String) :
    ∀ fuel k, fuel + k = 32 → k ≤ 31 →
      (∀ j, k ≤ j → j ≤ 30 → ∃ s, statusAt j = Except.ok s ∧
        (s == "completed") = false ∧ isFailStatus s = false) →
      pollAux statusAt fuel k = PollOutcome.timedOut 31 := by
  intro fuel
  induction fuel with
  | zero =>
    intro k hk hk31 _
    omega
  | succ n ih =>
    intro k hk hk31 hs
    by_cases h30 : 30 < k
    · have hk' : k = 31 := by omega
      subst hk'
      simp [pollAux]
    · obtain ⟨s, hok, hnc, hnf⟩ := hs k (le_refl k) (by omega)
      simp only [pollAux, if_neg h30, hok, hnc, hnf, Bool.false_eq_true, if_false]
      exact ih (k + 1) (by omega) (by omega) (fun j hj hj30 => hs j (by omega) hj30)

/-- The polling loop of a run that never reaches a terminal status within
the 30-unit deadline times out at elapsed index 31. -/
lemma pollRun_timedOut (statusAt : Nat → Except String String)
    (hs : ∀ j, j ≤ 30 → ∃ s, statusAt j = Except.ok s ∧
      (s == "completed") = false ∧ isFailStatus s = false) :
    pollRun statusAt = PollOutcome.timedOut 31 :=
  pollAux_timedOut statusAt 32 0 rfl (by omega) (fun j _ hj30 => hs j hj30)

/-- C2 is refuted: with a run that never leaves in_progress and a
cancellation call that itself raises, the handler still issues exactly one
cancellation request but answers 500, not 504: the outcome of the
cancellation call does change the result.  Moreover with the store
disconnected the 504 answer carries no persisted Error Record. -/
theorem send_message_timeout_counterexample :
    ((send_message reqHello oStuckCancelFail dbC 0).1.status = 500 ∧
      ¬ (send_message reqHello oStuckCancelFail dbC 0).1.status = 504 ∧
      ((send_message reqHello oStuckCancelFail dbC 0).2.2).count (Ev.rem RemEv.cancelRun) = 1) ∧
    ((send_message reqHello oStuck dbDown 0).1.status = 504 ∧
      (send_message reqHello oStuck dbDown 0).2.1.errs = []) := by
  decide

/-- C2 (amended): for a valid request whose run never reaches a terminal
status within the 30-unit deadline measured from run creation, the handler
issues exactly one cancellation request for the run; provided the
cancellation call itself does not raise and the store is available, it
answers 504 and persists one Error Record carrying the triggering user
message and the timeout description.  The return value of the cancellation
call is never inspected, but an exception from it is answered 500 instead
of 504. -/
theorem send_message_timeout (req : Req) (o : Oracle) (db : DB) (now : Nat)
    (runs : List RunInfo) (hl : o.listRunsRes = Except.ok runs)
    (hna : runs.any (fun r => r.status == "in_progress") = false)
    (hv : (falsy req.thread_id || falsy req.message) = false)
    (hp : o.postMsgRes = Except.ok ()) (hc : o.createRunRes = Except.ok ())
    (hs : ∀ j, j ≤ 30 → ∃ s, o.statusAt j = Except.ok s ∧
      (s == "completed") = false ∧ isFailStatus s = false)
    (hcan : o.cancelRes = Except.ok ())
    (hdb : db.connected = true) (hef : db.errOpsFail = false) :
    send_message req o db now =
      (⟨504, RespBody.err timeoutUserMsg⟩,
        { db with errs := db.errs ++
            [⟨req.thread_id.getD (""), req.message.getD (""), timeoutErrMsg, now⟩] },
        (Ev.lockAcquire :: ([RemEv.listRuns, RemEv.postMsg, RemEv.createRun] ++
          retrEvs 31 ++ [RemEv.cancelRun, RemEv.dbInsertErr]).map Ev.rem) ++
          [Ev.lockRelease]) ∧
    ((send_message req o db now).2.2).count (Ev.rem RemEv.cancelRun) = 1 := by
  have hpoll : pollRun o.statusAt = PollOutcome.timedOut 31 := pollRun_timedOut o.statusAt hs
  have h1 : send_message req o db now =
      (⟨504, RespBody.err timeoutUserMsg⟩,
        { db with errs := db.errs ++
            [⟨req.thread_id.getD (""), req.message.getD (""), timeoutErrMsg, now⟩] },
        (Ev.lockAcquire :: ([RemEv.listRuns, RemEv.postMsg, RemEv.createRun] ++
          retrEvs 31 ++ [RemEv.cancelRun, RemEv.dbInsertErr]).map Ev.rem) ++
          [Ev.lockRelease]) := by
    simp [send_message, send_message_body, hl, hna, hv, hp, hc, hpoll, hcan,
      save_error_to_db, hdb, hef]
  refine ⟨h1, ?_⟩
  rw [h1, count_rem_trace]
  decide

/-- Witness for the amended C2: the stuck oracle with a connected store
answers 504. -/
theorem send_message_timeout_witness :
    (send_message reqHello oStuck dbC 0).1 = ⟨504, RespBody.err timeoutUserMsg⟩ := by
  have h := send_message_timeout reqHello oStuck dbC 0 [] rfl rfl rfl rfl rfl
    (fun j _ => ⟨"in_progress", rfl, by decide, by decide⟩) rfl rfl rfl
  rw [h.1]

/-- The loop leaves with a terminalFail outcome only for a status the code
lists as terminal failure: failed, cancelled or expired. -/
lemma pollAux_terminalFail_status (statusAt : Nat → Except String String) :
    ∀ fuel k s j, pollAux statusAt fuel k = PollOutcome.terminalFail s j →
      isFailStatus s = true := by
  intro fuel
  induction fuel with
  | zero =>
    intro k s j h
    simp [pollAux] at h
  | succ n ih =>
    intro k s j h
    simp only [pollAux] at h
    split at h
    · exact absurd h (by simp)
    · split at h
      · exact absurd h (by simp)
      · split at h
        · exact absurd h (by simp)
        · split at h
          · rename_i hfail
            obtain ⟨h1, _⟩ := PollOutcome.terminalFail.inj h
            exact h1 ▸ hfail
          · exact ih _ _ _ h

/-- C5: for a valid request whose run reaches a terminal status among
failed, cancelled and expired, the handler answers 500 (distinct from the
504 timeout code) without creating a second run, and, the store being
available, persists one Error Record carrying the triggering user message
and an error description that spells out the terminal status; the
conversations collection is untouched. -/
theorem send_message_terminal_failure (req : Req) (o : Oracle) (db : DB) (now : Nat)
    (runs : List RunInfo) (hl : o.listRunsRes = Except.ok runs)
    (hna : runs.any (fun r => r.status == "in_progress") = false)
    (hv : (falsy req.thread_id || falsy req.message) = false)
    (hp : o.postMsgRes = Except.ok ()) (hc : o.createRunRes = Except.ok ())
    (s : String) (k : Nat) (hpoll : pollRun o.statusAt = PollOutcome.terminalFail s k)
    (hdb : db.connected = true) (hef : db.errOpsFail = false) :
    isFailStatus s = true ∧
    send_message req o db now =
      (⟨500, RespBody.err ("Run failed with status: " ++ s)⟩,
        { db with errs := db.errs ++
            [⟨req.thread_id.getD (""), req.message.getD (""),
              "Run failed with status: " ++ s, now⟩] },
        (Ev.lockAcquire :: ([RemEv.listRuns, RemEv.postMsg, RemEv.createRun] ++
          retrEvs (k + 1) ++ [RemEv.dbInsertErr]).map Ev.rem) ++ [Ev.lockRelease]) ∧
    (send_message req o db now).1.status ≠ 504 ∧
    ((send_message req o db now).2.2).count (Ev.rem RemEv.createRun) = 1 ∧
    (send_message req o db now).2.1.convs = db.convs := by
  have hfail : isFailStatus s = true := pollAux_terminalFail_status o.statusAt 32 0 s k hpoll
  have h1 : send_message req o db now =
      (⟨500, RespBody.err ("Run failed with status: " ++ s)⟩,
        { db with errs := db.errs ++
            [⟨req.thread_id.getD (""), req.message.getD (""),
              "Run failed with status: " ++ s, now⟩] },
        (Ev.lockAcquire :: ([RemEv.listRuns, RemEv.postMsg, RemEv.createRun] ++
          retrEvs (k + 1) ++ [RemEv.dbInsertErr]).map Ev.rem) ++ [Ev.lockRelease]) := by
    simp [send_message, send_message_body, hl, hna, hv, hp, hc, hpoll,
      save_error_to_db, hdb, hef]
  refine ⟨hfail, h1, ?_, ?_, ?_⟩
  · rw [h1]
    simp
  · rw [h1, count_rem_trace, List.count_append, List.count_append,
      count_retrEvs_of_ne _ _ (fun j h => RemEv.noConfusion h)]
    simp
  · rw [h1]

/-- C5 witness: the oracle whose run fails after one poll is answered 500
with the status spelled out. -/
theorem send_message_terminal_failure_witness :
    (send_message reqHello oFailed dbC 0).1 =
      ⟨500, RespBody.err ("Run failed with status: failed")⟩ := by
  have h := send_message_terminal_failure reqHello oFailed dbC 0 [] rfl rfl rfl rfl rfl
    ("failed") 1 (by decide) rfl rfl
  rw [h.2.1]
  decide

/-! The conversation store, observed per thread. -/

/-- The stored message list of a thread: the messages of the first
matching document, empty when none exists. -/
def convMessages (convs : List ConvDoc) (tid : String) : List MsgDoc :=
  ((find_one convs tid).map (fun c => c.messages)).getD []

/-- How many documents of the thread the conversations collection holds. -/
def convCount (convs : List ConvDoc) (tid : String) : Nat :=
  (convs.filter (fun c => c.thread_id == tid)).length

/-- update_one touches only the first matching document: the collection
splits into an unmatched front, the matched document with the batch
appended and the updated timestamp bumped, and an untouched tail. -/
lemma update_one_push_split (convs : List ConvDoc) (tid : String) (c : ConvDoc)
    (hc : find_one convs tid = some c) (ms : List MsgDoc) (now : Nat) :
    ∃ pre post, convs = pre ++ c :: post ∧
      (∀ x ∈ pre, (x.thread_id == tid) = false) ∧
      update_one_push convs tid ms now =
        pre ++ { c with messages := c.messages ++ ms, updated_at := now } :: post := by
  induction convs with
  | nil => simp [find_one] at hc
  | cons d ds ih =>
    by_cases hd : (d.thread_id == tid) = true
    · have hdc : d = c := by
        have h := hc
        unfold find_one at h
        simp only [List.find?_cons, hd] at h
        exact Option.some.inj h
      subst hdc
      refine ⟨[], ds, rfl, by simp, ?_⟩
      simp [update_one_push, hd]
    · have hd' : (d.thread_id == tid) = false := by simpa using hd
      have htail : find_one ds tid = some c := by
        have h := hc
        unfold find_one at h
        simp only [List.find?_cons, hd'] at h
        exact h
      obtain ⟨pre, post, hsplit, hpre, hupd⟩ := ih htail
      refine ⟨d :: pre, post, by simp [hsplit], ?_, ?_⟩
      · intro x hx
        rcases List.mem_cons.mp hx with hx | hx
        · subst hx
          simpa using hd
        · exact hpre x hx
      · simp only [update_one_push, hd', Bool.false_eq_true, if_false, hupd]
        rfl

/-- A thread with no document has zero documents in the collection. -/
lemma convCount_of_find_one_none (convs : List ConvDoc) (tid : String)
    (h : find_one convs tid = none) : convCount convs tid = 0 := by
  unfold convCount
  rw [List.length_eq_zero, List.filter_eq_nil_iff]
  intro a ha
  have := List.find?_eq_none.mp h a ha
  simpa using this

/-- update_one does not change how many documents a thread has. -/
lemma convCount_update_one_push (convs : List ConvDoc) (tid : String)
    (ms : List MsgDoc) (now : Nat) :
    convCount (update_one_push convs tid ms now) tid = convCount convs tid := by
  induction convs with
  | nil => rfl
  | cons d ds ih =>
    by_cases hd : (d.thread_id == tid) = true
    · simp [update_one_push, hd, convCount, List.filter_cons]
    · have hd' : (d.thread_id == tid) = false := by simpa using hd
      simp only [update_one_push, hd', Bool.false_eq_true, if_false]
      simp only [convCount, List.filter_cons, hd'] at ih ⊢
      simpa using ih

/-- find_one after appending a document for a previously absent thread
finds the appended document. -/
lemma find_one_append_of_none (convs : List ConvDoc) (tid : String) (c : ConvDoc)
    (h : find_one convs tid = none) (hc : (c.thread_id == tid) = true) :
    find_one (convs ++ [c]) tid = some c := by
  unfold find_one at h ⊢
  rw [List.find?_append, h]
  simp [List.find?_cons, hc]

/-- The per-thread stored message list after a successful upsert is the
previous list with the user-and-assistant batch appended, in both the
insert and the update branch. -/
lemma convMessages_save (db : DB) (tid u a : String) (now : Nat)
    (hdb : db.connected = true) (hcf : db.convOpsFail = false) :
    convMessages (save_conversation_to_db db tid u a now).2.convs tid =
      convMessages db.convs tid ++ turnBatch u a now := by
  cases hfo : find_one db.convs tid with
  | none =>
    have hs : (save_conversation_to_db db tid u a now).2.convs =
        db.convs ++ [⟨tid, turnBatch u a now, now, now⟩] := by
      simp [save_conversation_to_db, hdb, hcf, hfo]
    rw [hs]
    unfold convMessages
    rw [find_one_append_of_none db.convs tid _ hfo (by simp), hfo]
    simp
  | some c =>
    obtain ⟨pre, post, hsplit, hpre, hupd⟩ :=
      update_one_push_split db.convs tid c hfo (turnBatch u a now) now
    have hs : (save_conversation_to_db db tid u a now).2.convs =
        pre ++ { c with messages := c.messages ++ turnBatch u a now,
                        updated_at := now } :: post := by
      simp [save_conversation_to_db, hdb, hcf, hfo, hupd]
    have hcp0 := List.find?_some
      (show List.find? (fun x => x.thread_id == tid) db.convs = some c from hfo)
    have hcp : (c.thread_id == tid) = true := by simpa using hcp0
    have hfpre : pre.find? (fun x => x.thread_id == tid) = none :=
      List.find?_eq_none.mpr (fun x hx => by simp [hpre x hx])
    have hfo' : List.find? (fun x => x.thread_id == tid) db.convs = some c := hfo
    simp [convMessages, hs, find_one, List.find?_append, hfpre, List.find?_cons, hcp, hfo']

/-- Appending one matching document to a collection holding none for the
thread leaves exactly one document for it. -/
lemma convCount_append_single_of_none (convs : List ConvDoc) (tid : String)
    (c : ConvDoc) (h : find_one convs tid = none) (hc : (c.thread_id == tid) = true) :
    convCount (convs ++ [c]) tid = 1 := by
  unfold convCount
  rw [List.filter_append]
  have h0 : convs.filter (fun x => x.thread_id == tid) = [] := by
    rw [List.filter_eq_nil_iff]
    intro x hx
    have := List.find?_eq_none.mp h x hx
    simpa using this
  rw [h0]
  simp [hc]

/-- C7: recordTurn has upsert semantics.  With the store available, the
call reports success and appends the user-then-assistant batch, the two
halves sharing one timestamp, to the per-thread message list.  When no
document exists, exactly one document is created holding exactly the
two-entry batch with created and updated timestamps both set to now; when
one exists, only the first matching document changes: its message list is
extended and its updated timestamp bumped, its thread id, creation
timestamp and earlier messages kept, every other document untouched.  Two
successive calls for a previously unseen thread leave one document holding
the two batches, not two documents. -/
theorem recordTurn_upsert (db : DB) (tid u a u2 a2 : String) (now now2 : Nat)
    (hdb : db.connected = true) (hcf : db.convOpsFail = false) :
    (save_conversation_to_db db tid u a now).1 = true ∧
    convMessages (save_conversation_to_db db tid u a now).2.convs tid =
      convMessages db.convs tid ++ turnBatch u a now ∧
    (find_one db.convs tid = none →
      (save_conversation_to_db db tid u a now).2.convs =
        db.convs ++ [⟨tid, turnBatch u a now, now, now⟩]) ∧
    (∀ c, find_one db.convs tid = some c →
      ∃ pre post, db.convs = pre ++ c :: post ∧
        (∀ x ∈ pre, (x.thread_id == tid) = false) ∧
        (save_conversation_to_db db tid u a now).2.convs =
          pre ++ { c with messages := c.messages ++ turnBatch u a now,
                          updated_at := now } :: post) ∧
    (find_one db.convs tid = none →
      convCount (save_conversation_to_db
          (save_conversation_to_db db tid u a now).2 tid u2 a2 now2).2.convs tid = 1 ∧
      convMessages (save_conversation_to_db
          (save_conversation_to_db db tid u a now).2 tid u2 a2 now2).2.convs tid =
        turnBatch u a now ++ turnBatch u2 a2 now2) := by
  refine ⟨?_, convMessages_save db tid u a now hdb hcf, ?_, ?_, ?_⟩
  · cases hfo : find_one db.convs tid <;>
      simp [save_conversation_to_db, hdb, hcf, hfo]
  · intro hfo
    simp [save_conversation_to_db, hdb, hcf, hfo]
  · intro c hfo
    obtain ⟨pre, post, hsplit, hpre, hupd⟩ :=
      update_one_push_split db.convs tid c hfo (turnBatch u a now) now
    exact ⟨pre, post, hsplit, hpre, by simp [save_conversation_to_db, hdb, hcf, hfo, hupd]⟩
  · intro hfo
    have hd1 : (save_conversation_to_db db tid u a now).2 =
        { db with convs := db.convs ++ [⟨tid, turnBatch u a now, now, now⟩] } := by
      simp [save_conversation_to_db, hdb, hcf, hfo]
    rw [hd1]
    have hfo1 : find_one (db.convs ++ [⟨tid, turnBatch u a now, now, now⟩]) tid =
        some ⟨tid, turnBatch u a now, now, now⟩ :=
      find_one_append_of_none db.convs tid _ hfo (by simp)
    constructor
    · have h2 : (save_conversation_to_db
          { db with convs := db.convs ++ [⟨tid, turnBatch u a now, now, now⟩] }
          tid u2 a2 now2).2.convs =
          update_one_push (db.convs ++ [⟨tid, turnBatch u a now, now, now⟩]) tid
            (turnBatch u2 a2 now2) now2 := by
        simp [save_conversation_to_db, hdb, hcf, hfo1]
      rw [h2, convCount_update_one_push]
      exact convCount_append_single_of_none db.convs tid _ hfo (by simp)
    · rw [convMessages_save
        { db with convs := db.convs ++ [⟨tid, turnBatch u a now, now, now⟩] }
        tid u2 a2 now2 hdb hcf]
      simp [convMessages, hfo1]

/-- C7 witness: the upsert theorem applied to the empty connected store. -/
theorem recordTurn_upsert_witness :
    (save_conversation_to_db dbC ("T1") ("hello") ("hi there") 1).1 = true :=
  (recordTurn_upsert dbC ("T1") ("hello") ("hi there") ("again") ("sure") 1 2 rfl rfl).1

/-- Upserting a turn never touches the errors collection or the flags. -/
lemma save_conversation_errs (db : DB) (tid u a : String) (now : Nat) :
    (save_conversation_to_db db tid u a now).2.errs = db.errs := by
  unfold save_conversation_to_db
  split
  · rfl
  · split
    · rfl
    · split <;> rfl

/-- C4: for a valid request whose run completes and whose thread holds an
assistant-authored message (first in the most-recent-first remote list),
the handler answers 200 with that text and the thread id, the trace holds
exactly one store upsert, and, the store being available, the per-thread
message list gains exactly the user-and-assistant pair; the errors
collection is untouched. -/
theorem send_message_completed (req : Req) (o : Oracle) (db : DB) (now : Nat)
    (runs : List RunInfo) (hl : o.listRunsRes = Except.ok runs)
    (hna : runs.any (fun r => r.status == "in_progress") = false)
    (hv : (falsy req.thread_id || falsy req.message) = false)
    (hp : o.postMsgRes = Except.ok ()) (hc : o.createRunRes = Except.ok ())
    (k : Nat) (hpoll : pollRun o.statusAt = PollOutcome.completed k)
    (msgs : List RMessage) (hm : o.listMsgsRes = Except.ok msgs)
    (m : RMessage) (hfind : msgs.find? (fun x => x.role == "assistant") = some m)
    (text : String) (rest : List String) (hct : m.content = text :: rest)
    (hdb : db.connected = true) (hcf : db.convOpsFail = false) :
    (send_message req o db now).1 =
      ⟨200, RespBody.ok text (req.thread_id.getD (""))⟩ ∧
    ((send_message req o db now).2.2).count (Ev.rem RemEv.dbUpsert) = 1 ∧
    convMessages (send_message req o db now).2.1.convs (req.thread_id.getD ("")) =
      convMessages db.convs (req.thread_id.getD ("")) ++
        turnBatch (req.message.getD ("")) text now ∧
    (send_message req o db now).2.1.errs = db.errs := by
  have h1 : send_message req o db now =
      (⟨200, RespBody.ok text (req.thread_id.getD (""))⟩,
        (save_conversation_to_db db (req.thread_id.getD (""))
          (req.message.getD ("")) text now).2,
        (Ev.lockAcquire :: ([RemEv.listRuns, RemEv.postMsg, RemEv.createRun] ++
          retrEvs (k + 1) ++ [RemEv.listMsgs, RemEv.dbUpsert]).map Ev.rem) ++
          [Ev.lockRelease]) := by
    simp [send_message, send_message_body, hl, hna, hv, hp, hc, hpoll, hm, hfind, hct]
  refine ⟨by rw [h1], ?_, ?_, ?_⟩
  · rw [h1, count_rem_trace, List.count_append, List.count_append,
      count_retrEvs_of_ne _ _ (fun j h => RemEv.noConfusion h)]
    simp
  · rw [h1]
    exact convMessages_save db _ _ text now hdb hcf
  · rw [h1]
    exact save_conversation_errs db _ _ text now

/-- C4 witness: the spec scenario with thread T1, user message hello, a
run completing after two polls and assistant text found first. -/
theorem send_message_completed_witness :
    (send_message reqHello oHappy dbC 5).1 =
      ⟨200, RespBody.ok ("hi there") (reqHello.thread_id.getD (""))⟩ :=
  (send_message_completed reqHello oHappy dbC 5 [] rfl rfl rfl rfl rfl
    2 (by decide) [⟨"assistant", ["hi there"]⟩, ⟨"user", ["hello"]⟩] rfl
    ⟨"assistant", ["hi there"]⟩ (by decide) ("hi there") [] rfl rfl rfl).1

/-- C8: when the persistence step fails (store disconnected or the write
raising), the caller-facing result of a successful turn is unchanged: the
handler still answers 200 with the assistant text, and the store is left
exactly as it was. -/
theorem send_message_persistence_failure (req : Req) (o : Oracle) (db : DB) (now : Nat)
    (runs : List RunInfo) (hl : o.listRunsRes = Except.ok runs)
    (hna : runs.any (fun r => r.status == "in_progress") = false)
    (hv : (falsy req.thread_id || falsy req.message) = false)
    (hp : o.postMsgRes = Except.ok ()) (hc : o.createRunRes = Except.ok ())
    (k : Nat) (hpoll : pollRun o.statusAt = PollOutcome.completed k)
    (msgs : List RMessage) (hm : o.listMsgsRes = Except.ok msgs)
    (m : RMessage) (hfind : msgs.find? (fun x => x.role == "assistant") = some m)
    (text : String) (rest : List String) (hct : m.content = text :: rest)
    (hfail : db.connected = false ∨ db.convOpsFail = true) :
    (send_message req o db now).1 =
      ⟨200, RespBody.ok text (req.thread_id.getD (""))⟩ ∧
    (send_message req o db now).2.1 = db := by
  have hsave : save_conversation_to_db db (req.thread_id.getD (""))
      (req.message.getD ("")) text now = (false, db) := by
    rcases hfail with h | h
    · simp [save_conversation_to_db, h]
    · cases hconn : db.connected <;> simp [save_conversation_to_db, h, hconn]
  have h1 : send_message req o db now =
      (⟨200, RespBody.ok text (req.thread_id.getD (""))⟩,
        (save_conversation_to_db db (req.thread_id.getD (""))
          (req.message.getD ("")) text now).2,
        (Ev.lockAcquire :: ([RemEv.listRuns, RemEv.postMsg, RemEv.createRun] ++
          retrEvs (k + 1) ++ [RemEv.listMsgs, RemEv.dbUpsert]).map Ev.rem) ++
          [Ev.lockRelease]) := by
    simp [send_message, send_message_body, hl, hna, hv, hp, hc, hpoll, hm, hfind, hct]
  refine ⟨by rw [h1], ?_⟩
  rw [h1]
  show (save_conversation_to_db db (req.thread_id.getD (""))
    (req.message.getD ("")) text now).2 = db
  rw [hsave]

/-- C8 witness: the spec scenario against the disconnected store still
answers 200 with the assistant text. -/
theorem send_message_persistence_failure_witness :
    (send_message reqHello oHappy dbDown 5).1 =
      ⟨200, RespBody.ok ("hi there") (reqHello.thread_id.getD (""))⟩ :=
  (send_message_persistence_failure reqHello oHappy dbDown 5 [] rfl rfl rfl rfl rfl
    2 (by decide) [⟨"assistant", ["hi there"]⟩, ⟨"user", ["hello"]⟩] rfl
    ⟨"assistant", ["hi there"]⟩ (by decide) ("hi there") [] rfl (Or.inl rfl)).1

/-- C9: for a valid request whose run completes but whose remote message
list holds no assistant-authored message, the handler answers the sentinel
no-answer body with the 200 status of a plain jsonify, writes no Error
Record and persists no Turn: the store is returned untouched and the trace
holds no store call. -/
theorem send_message_no_assistant (req : Req) (o : Oracle) (db : DB) (now : Nat)
    (runs : List RunInfo) (hl : o.listRunsRes = Except.ok runs)
    (hna : runs.any (fun r => r.status == "in_progress") = false)
    (hv : (falsy req.thread_id || falsy req.message) = false)
    (hp : o.postMsgRes = Except.ok ()) (hc : o.createRunRes = Except.ok ())
    (k : Nat) (hpoll : pollRun o.statusAt = PollOutcome.completed k)
    (msgs : List RMessage) (hm : o.listMsgsRes = Except.ok msgs)
    (hnone : msgs.find? (fun x => x.role == "assistant") = none) :
    send_message req o db now =
      (⟨200, RespBody.ok noAnswerMsg (req.thread_id.getD (""))⟩, db,
        (Ev.lockAcquire :: ([RemEv.listRuns, RemEv.postMsg, RemEv.createRun] ++
          retrEvs (k + 1) ++ [RemEv.listMsgs]).map Ev.rem) ++ [Ev.lockRelease]) ∧
    ((send_message req o db now).2.2).count (Ev.rem RemEv.dbUpsert) = 0 ∧
    ((send_message req o db now).2.2).count (Ev.rem RemEv.dbInsertErr) = 0 := by
  have h1 : send_message req o db now =
      (⟨200, RespBody.ok noAnswerMsg (req.thread_id.getD (""))⟩, db,
        (Ev.lockAcquire :: ([RemEv.listRuns, RemEv.postMsg, RemEv.createRun] ++
          retrEvs (k + 1) ++ [RemEv.listMsgs]).map Ev.rem) ++ [Ev.lockRelease]) := by
    simp [send_message, send_message_body, hl, hna, hv, hp, hc, hpoll, hm, hnone]
  refine ⟨h1, ?_, ?_⟩ <;>
    rw [h1, count_rem_trace, List.count_append, List.count_append,
      count_retrEvs_of_ne _ _ (fun j h => RemEv.noConfusion h)] <;>
    simp

/-- C9 witness: the oracle whose completed run lists only the user
message. -/
theorem send_message_no_assistant_witness :
    (send_message reqHello oNoAssistant dbC 5).1 =
      ⟨200, RespBody.ok noAnswerMsg (reqHello.thread_id.getD (""))⟩ := by
  have h := send_message_no_assistant reqHello oNoAssistant dbC 5 [] rfl rfl rfl rfl rfl
    2 (by decide) [⟨"user", ["hello"]⟩] rfl (by decide)
  rw [h.1]

/-- C10 is refuted: the registry insertion is a non-atomic membership test
followed by a store, so two concurrent first accesses for the same thread
id can interleave as test, test, store, lookup, store, lookup, after which
the two requests have completed their accesses holding two distinct
mutual-exclusion primitives (handles 0 and 1). -/
theorem thread_locks_race_counterexample :
    (runSched ("T1") [true, false, true, true, false, false]
      ⟨[], 0⟩ accInit accInit).2.1.pc = 3 ∧
    (runSched ("T1") [true, false, true, true, false, false]
      ⟨[], 0⟩ accInit accInit).2.2.pc = 3 ∧
    (runSched ("T1") [true, false, true, true, false, false]
      ⟨[], 0⟩ accInit accInit).2.1.got = some 0 ∧
    (runSched ("T1") [true, false, true, true, false, false]
      ⟨[], 0⟩ accInit accInit).2.2.got = some 1 := by
  decide

/-- C10 (amended): without interleaving, a first access for a thread id
allocates a fresh primitive and stores it, and a subsequent access for the
same thread id returns that same primitive without changing the registry;
the race-freedom of concurrent first access for the same thread id does
not hold (see the interleaving counterexample). -/
theorem getThreadLock_first_access (r : Registry) (tid : String)
    (h : regContains r tid = false) :
    (getThreadLock r tid).2 = some r.nextId ∧
    regContains (getThreadLock r tid).1 tid = true ∧
    getThreadLock (getThreadLock r tid).1 tid =
      ((getThreadLock r tid).1, some r.nextId) := by
  have hlook : regLookup (regInsert r tid) tid = some r.nextId := by
    simp [regLookup, regInsert, List.find?_cons]
  have hcont : regContains (regInsert r tid) tid = true := by
    simp [regContains, regInsert, List.find?_cons]
  have h2 : getThreadLock r tid = (regInsert r tid, some r.nextId) := by
    simp [getThreadLock, h, hlook]
  rw [h2]
  refine ⟨rfl, hcont, ?_⟩
  simp [getThreadLock, hcont, hlook]

/-- Witness for the amended C10: first access on the empty registry hands
out primitive 0. -/
theorem getThreadLock_first_access_witness :
    (getThreadLock ⟨[], 0⟩ ("T1")).2 = some 0 :=
  (getThreadLock_first_access ⟨[], 0⟩ ("T1") rfl).1
